import Mathlib

/-!
Verification of the yapp-sdk payment request protocol (`src/utils/MessageManager.ts`,
`src/utils/memoValidation.ts`, `src/utils/currencyValidation.ts`) against its
natural-language specification.  The TypeScript code is shallowly embedded:
stateful browser APIs (session storage, timers, the visibility listener, the
page URL, the caller's promise) become an explicit `World` record, and each
code path becomes a pure Lean function on that record together with a trace of
the side effects it performs, in source order.
-/

set_option maxRecDepth 4000

namespace YappSdk

/-- Errors raised by the payment protocol, one constructor per distinct
`new Error(...)` site relevant to the claims.  `invalidCurrency` carries the
interpolated received value and the allowed list, as the source message does. -/
inductive SdkError
  | memoTooLarge
  | invalidCurrency (received : String) (allowed : List String)
  | invalidAmount
  | redirectUrlRequired
  | memoTooLong
  | paymentCancelled
  | paymentTimedOut
  | paymentFailed
  | invalidOrigin (target expected : String)
  | notInIframe
  deriving Repr, DecidableEq

/-- Payment response payload (`{ txHash, chainId }`).  `chainId = none` models
the JavaScript `NaN` that `parseInt` produces on an unparseable string. -/
structure Payment where
  txHash : String
  chainId : Option Int
  deriving Repr, DecidableEq

/-- State of the caller's promise.  JavaScript promises settle at most once:
`resolve`/`reject` on an already-settled promise is a silent no-op, which
`PromiseState.settle` captures. -/
inductive PromiseState
  | pending
  | resolved (p : Payment)
  | rejected (e : SdkError)
  deriving Repr, DecidableEq

/-- Settling a promise: takes effect only while pending (JS semantics). -/
def PromiseState.settle : PromiseState → PromiseState → PromiseState
  | .pending, o => o
  | s, _ => s

/-! ## memoValidation.ts -/

/-- Source `isValidMemoSize`: the UTF-8 encoding of the memo is at most 32 bytes. -/
def isValidMemoSize (memo : String) : Bool :=
  memo.utf8ByteSize ≤ 32

/-- The hyphen-stripping `uuid.replace` step of `createValidMemoFromUUID`. -/
def removeHyphens (s : String) : String :=
  ⟨s.data.filter (fun c => c ≠ '-')⟩

/-- Source `createValidMemoFromUUID`: strips hyphens; empty input yields the empty
memo; an over-32-byte result is a hard error (`throw new Error('Memo is too
long')`), never a silent truncation. -/
def createValidMemoFromUUID (uuid : String) : Except SdkError String :=
  let compactUUID := removeHyphens uuid
  if compactUUID = "" then .ok ""
  else if isValidMemoSize compactUUID then .ok compactUUID
  else .error .memoTooLong

/-! ## currencyValidation.ts and types/currency.ts -/

/-- The members of the `FiatCurrency` enum, in declaration order. -/
def fiatCurrencyCodes : List String :=
  ["EUR", "USD", "GBP", "JPY", "CNY", "KRW", "INR", "RUB", "TRY", "BRL",
   "CAD", "AUD", "NZD", "CHF", "ILS", "MXN", "IDR", "THB", "VND", "SGD",
   "PHP", "PLN", "SEK"]

/-- Source `isValidFiatCurrency`: membership in `Object.values(FiatCurrency)`.
An absent (`undefined`) currency is not a member, so it yields `false`. -/
def isValidFiatCurrency : Option String → Bool
  | none => false
  | some c => fiatCurrencyCodes.contains c

/-! ## JavaScript numbers, as far as the amount check observes them

The amount check only evaluates `typeof x !== 'number'` and `x <= 0`, so a
JS number is modelled as NaN, the two infinities, or a finite value (a
rational).  No floating-point arithmetic is performed by the source. -/

inductive JSNum
  | nan
  | posInf
  | negInf
  | fin (q : ℚ)
  deriving Repr, DecidableEq

/-- The JS comparison `x <= 0`; any comparison with NaN is false. -/
def JSNum.leZero : JSNum → Bool
  | .nan => false
  | .posInf => false
  | .negInf => true
  | .fin q => decide (q ≤ 0)

/-! ## sendPaymentRequest: synchronous validation prefix (lines 257-306) -/

/-- Payment configuration.  `none` models an absent (`undefined`) field. -/
structure PaymentConfig where
  amount : Option JSNum
  currency : Option String
  memo : Option String
  redirectUrl : Option String
  deriving Repr, DecidableEq

/-- JS truthiness of an optional string: `undefined` and `''` are falsy. -/
def jsTruthyStr : Option String → Bool
  | none => false
  | some s => s ≠ ""

/-- String interpolation of an optional string (`undefined` prints as such). -/
def showOptString : Option String → String
  | none => "undefined"
  | some s => s

/-- The guard `typeof config.amount !== 'number' || config.amount <= 0`. -/
def amountIsInvalid : Option JSNum → Bool
  | none => true
  | some x => x.leZero

/-- The three synchronous validation checks of `sendPaymentRequest`, in source
order: memo size (only when the memo is truthy), currency, amount.  Returns
the first error, or `none` when validation passes. -/
def validatePayment (config : PaymentConfig) : Option SdkError :=
  if jsTruthyStr config.memo && !(isValidMemoSize (config.memo.getD "")) then
    some .memoTooLarge
  else if !(isValidFiatCurrency config.currency) then
    some (.invalidCurrency (showOptString config.currency) fiatCurrencyCodes)
  else if amountIsInvalid config.amount then
    some .invalidAmount
  else
    none

/-- The outbound `PAYMENT_REQUEST` message payload. -/
structure PaymentRequestMessage where
  address : String
  amount : Option JSNum
  currency : Option String
  memo : Option String
  deriving Repr, DecidableEq

/-- Transport routing decision of `sendPaymentRequest` after validation:
in-frame when `isInIframe()`, otherwise redirect, which requires a truthy
`redirectUrl` (`if (!config.redirectUrl)`). -/
inductive Route
  | rejectedEarly (e : SdkError)
  | inFrame (msg : PaymentRequestMessage)
  | redirect (msg : PaymentRequestMessage) (redirectUrl : String)
  deriving Repr, DecidableEq

/-- The synchronous head of `sendPaymentRequest`: validation, message
construction, and transport selection.  No side effect has occurred yet. -/
def routePayment (address : String) (config : PaymentConfig)
    (inIframe : Bool) : Route :=
  match validatePayment config with
  | some e => .rejectedEarly e
  | none =>
    let msg : PaymentRequestMessage :=
      { address := address, amount := config.amount,
        currency := config.currency, memo := config.memo }
    if inIframe then
      .inFrame msg
    else if jsTruthyStr config.redirectUrl then
      .redirect msg (config.redirectUrl.getD "")
    else
      .rejectedEarly .redirectUrlRequired

/-! ## Origin Guard (`isOriginAllowed`, MessageManager.ts lines 123-132)

The source parses both strings with `new URL(...)` and compares the `.origin`
serializations with `===`; a parse failure on either side is caught, logged
as a warning, and yields `false`.  The parser below models the WHATWG URL
parser's origin behaviour: input whitespace preprocessing; a mandatory
`scheme:` prefix; the five special schemes `ftp`, `http`, `https`, `ws`,
`wss` producing tuple origins (lowercased scheme and host, userinfo dropped,
any run of slashes after the colon tolerated, numeric port at most 65535,
default or empty port normalized away); and every other scheme — `file:`,
`mailto:`, `data:`, custom schemes — producing the opaque origin, which
serializes as the literal string `"null"`.  Outside the modelled fragment
are IPv6 bracket hosts, internationalized or percent-encoded hosts (the
model treats them as parse failures), and `blob:` inner origins. -/

/-- Splits a list at the first occurrence of `sep`, which stays in the tail. -/
def spanNe (sep : Char) : List Char → List Char × List Char
  | [] => ([], [])
  | c :: cs =>
    if c = sep then ([], c :: cs)
    else
      let p := spanNe sep cs
      (c :: p.1, p.2)

/-- True on the characters that end the authority component of a URL
(WHATWG treats a backslash like a slash in special URLs). -/
def isAuthorityEnd (c : Char) : Bool := c = '/' || c = '\\' || c = '?' || c = '#'

/-- The special schemes of the URL standard that yield tuple origins. -/
def specialSchemes : List String := ["ftp", "http", "https", "ws", "wss"]

/-- Default port of each special scheme. -/
def defaultPort (scheme : String) : Nat :=
  if scheme = "ftp" then 21
  else if scheme = "https" then 443
  else if scheme = "wss" then 443
  else 80

/-- A URL origin: a (scheme, host, port) tuple for special schemes, or the
opaque origin that serializes as `"null"` for everything else. -/
inductive OriginVal
  | tuple (scheme host : String) (port : Nat)
  | nullOrigin
  deriving Repr, DecidableEq

/-- Decimal digit to its character. -/
def digitChar : Nat → Char
  | 0 => '0' | 1 => '1' | 2 => '2' | 3 => '3' | 4 => '4'
  | 5 => '5' | 6 => '6' | 7 => '7' | 8 => '8' | _ => '9'

/-- Character to its decimal digit value (0 on non-digits). -/
def charToDigit : Char → Nat
  | '1' => 1 | '2' => 2 | '3' => 3 | '4' => 4 | '5' => 5
  | '6' => 6 | '7' => 7 | '8' => 8 | '9' => 9 | _ => 0

/-- Value of a decimal digit string (most significant digit first). -/
def digitsVal (l : List Char) : Nat :=
  l.foldl (fun acc c => 10 * acc + charToDigit c) 0

/-- Decimal rendering helper; the first argument is fuel bounding the number. -/
def natToCharsAux : Nat → Nat → List Char
  | 0, _ => []
  | fuel + 1, n =>
    if n = 0 then [] else natToCharsAux fuel (n / 10) ++ [digitChar (n % 10)]

/-- Decimal rendering of a natural number, as the URL serializer writes it. -/
def natToChars (n : Nat) : List Char :=
  if n = 0 then ['0'] else natToCharsAux n n

/-- True on C0 controls and space, which `new URL` trims at both ends. -/
def isC0OrSpace (c : Char) : Bool := c.toNat ≤ 32

/-- True on ASCII tab and newlines, which `new URL` removes everywhere. -/
def isTabOrNewline (c : Char) : Bool := c = '\t' || c = '\n' || c = '\r'

/-- The URL standard's input preprocessing: trim leading and trailing C0
controls and spaces, then remove all tabs and newlines. -/
def preprocessUrl (s : String) : List Char :=
  let trimmed := ((s.data.dropWhile isC0OrSpace).reverse.dropWhile
    isC0OrSpace).reverse
  trimmed.filter (fun c => !(isTabOrNewline c))

/-- First character of a scheme: an ASCII letter. -/
def isSchemeStart (c : Char) : Bool := c.isAlpha

/-- Subsequent scheme characters: ASCII alphanumerics, plus, minus, dot. -/
def isSchemeChar (c : Char) : Bool := c.isAlphanum || c = '+' || c = '-' || c = '.'

/-- Splits `scheme:` off the preprocessed input; `none` when there is no
well-formed scheme, which makes `new URL` throw. -/
def splitScheme (l : List Char) : Option (List Char × List Char) :=
  match l with
  | [] => none
  | c :: _ =>
    if isSchemeStart c then
      match l.dropWhile isSchemeChar with
      | ':' :: rest => some (l.takeWhile isSchemeChar, rest)
      | _ => none
    else none

/-- Characters that may not appear in the host of a special-scheme URL in
the modelled fragment: the standard's forbidden host code points, plus
percent signs and non-ASCII characters (percent-decoding and IDNA are
outside the fragment, so such hosts are treated as parse failures). -/
def forbiddenHostChar (c : Char) : Bool :=
  c.toNat = 0 || c = '\t' || c = '\n' || c = '\r' || c = ' ' || c = '#' ||
  c = '/' || c = ':' || c = '<' || c = '>' || c = '?' || c = '@' || c = '[' ||
  c = '\\' || c = ']' || c = '^' || c = '|' || c = '%' || c.toNat > 127

/-- Strips the userinfo: the host part is what follows the last `@`. -/
def hostAfterUserinfo (auth : List Char) : List Char :=
  if auth.contains '@' then (auth.reverse.takeWhile (fun c => c ≠ '@')).reverse
  else auth

/-- Result of parsing the characters after the port colon. -/
inductive PortParse
  | defaulted
  | val (n : Nat)
  | invalid
  deriving Repr, DecidableEq

/-- Parses port characters: empty means the default port, a digit run of
value at most 65535 is that port, anything else makes `new URL` throw. -/
def parsePortChars (ps : List Char) : PortParse :=
  if ps = [] then .defaulted
  else if ps.all Char.isDigit then
    if digitsVal ps ≤ 65535 then .val (digitsVal ps) else .invalid
  else .invalid

/-- Parses the authority of a special-scheme URL into a tuple origin: skip
any slashes after the colon, cut the authority at the first delimiter, drop
userinfo, lowercase, split host from port at the first colon; the host must
be non-empty and free of forbidden characters. -/
def parseSpecialAuthority (scheme : String) (rest : List Char) :
    Option OriginVal :=
  let afterSlashes := rest.dropWhile (fun c => c = '/' || c = '\\')
  let auth := afterSlashes.takeWhile (fun c => !(isAuthorityEnd c))
  let hostport := (hostAfterUserinfo auth).map Char.toLower
  let hp := spanNe ':' hostport
  if hp.1 = [] then none
  else if hp.1.any forbiddenHostChar then none
  else
    let host := String.mk hp.1
    match hp.2 with
    | [] => some (.tuple scheme host (defaultPort scheme))
    | _ :: ps =>
      match parsePortChars ps with
      | .defaulted => some (.tuple scheme host (defaultPort scheme))
      | .val n => some (.tuple scheme host n)
      | .invalid => none

/-- Validates the authority of a non-special `//` URL (its origin is opaque
either way, but an invalid port still makes `new URL` throw). -/
def parseNonSpecialAuthority (rest : List Char) : Option OriginVal :=
  let auth := rest.takeWhile (fun c => !(isAuthorityEnd c))
  let hostport := hostAfterUserinfo auth
  let hp := spanNe ':' hostport
  match hp.2 with
  | [] => some .nullOrigin
  | _ :: ps =>
    match parsePortChars ps with
    | .invalid => none
    | _ => some .nullOrigin

/-- Parses a string as an absolute URL and extracts its origin, modelling
`new URL(s).origin`; `none` models the constructor throwing.  Special
schemes produce tuple origins; `file:` and all non-special schemes produce
the opaque origin. -/
def parseUrlOrigin (s : String) : Option OriginVal :=
  match splitScheme (preprocessUrl s) with
  | none => none
  | some (schRaw, rest) =>
    let scheme := String.mk (schRaw.map Char.toLower)
    if scheme ∈ specialSchemes then
      parseSpecialAuthority scheme rest
    else if scheme = "file" then
      some .nullOrigin
    else
      match rest with
      | '/' :: '/' :: rest2 => parseNonSpecialAuthority rest2
      | _ => some .nullOrigin

/-- The `.origin` serialization: `scheme://host[:port]` for tuple origins
(the port omitted when it is the scheme's default), and the literal string
`"null"` for the opaque origin. -/
def serializeOrigin : OriginVal → String
  | .tuple scheme host port =>
    String.mk (scheme.data ++ ':' :: '/' :: '/' :: (host.data ++
      (if port = defaultPort scheme then [] else ':' :: natToChars port)))
  | .nullOrigin => "null"

/-- Source `isOriginAllowed`, with the side channel of the `console.warn`
call: returns (result, warned).  Parses both the configured origin and the
candidate; on success compares the `.origin` serializations, otherwise warns
and returns `false`.  The function is total: it never throws. -/
def isOriginAllowedWarn (allowedOrigin origin : String) : Bool × Bool :=
  match parseUrlOrigin allowedOrigin, parseUrlOrigin origin with
  | some a, some t => (serializeOrigin a == serializeOrigin t, false)
  | _, _ => (false, true)

/-- The Boolean result of `isOriginAllowed`. -/
def isOriginAllowed (allowedOrigin origin : String) : Bool :=
  (isOriginAllowedWarn allowedOrigin origin).1

/-! ## The browser-side state touched by the payment flows

A `World` bundles the mutable state the protocol observes: the caller's
promise, the session storage (an association list of string keys, since
`sessionStorage` is a string-keyed store of which the code uses the single
key `STORAGE_KEY`), the set of scheduled timeout handles together with a
fresh-handle counter, the listener registrations, the page URL's query
parameters, and the history length.  All modelling covers one in-flight
payment request, matching the protocol's single pending-request slot. -/

/-- Constant `STORAGE_KEY`: the one session-storage key the payment flow uses. -/
def STORAGE_KEY : String := "yodl_payment_request"

/-- Production payment timeout (5 minutes). -/
def PAYMENT_TIMEOUT_MS : Nat := 300000

/-- Test-profile payment timeout (1 second). -/
def TEST_TIMEOUT_MS : Nat := 1000

/-- The JSON record persisted in session storage by the redirect transport:
`{timestamp, ...message.payload, memo, redirectUrl}` plus the later
`timeoutId` patch. -/
structure StoredRecord where
  timestamp : Nat
  address : String
  amount : Option JSNum
  currency : Option String
  memo : String
  redirectUrl : String
  timeoutId : Option Nat
  deriving Repr, DecidableEq

/-- Model of `sessionStorage.getItem`. -/
def getItem (key : String) : List (String × StoredRecord) → Option StoredRecord
  | [] => none
  | kv :: rest => if kv.1 = key then some kv.2 else getItem key rest

/-- Model of `sessionStorage.setItem`: replaces the binding for `key`, or appends. -/
def setItem (key : String) (v : StoredRecord) :
    List (String × StoredRecord) → List (String × StoredRecord)
  | [] => [(key, v)]
  | kv :: rest => if kv.1 = key then (key, v) :: rest else kv :: setItem key v rest

/-- Model of `sessionStorage.removeItem`. -/
def removeItem (key : String) (st : List (String × StoredRecord)) :
    List (String × StoredRecord) :=
  st.filter (fun kv => kv.1 ≠ key)

/-- The query parameters the return handler reads from the page URL. -/
structure UrlParams where
  memo : Option String
  status : Option String
  txHash : Option String
  chainId : Option String
  deriving Repr, DecidableEq

/-- A URL with no payment query parameters (the state after cleanup). -/
def UrlParams.empty : UrlParams := ⟨none, none, none, none⟩

/-- The payment-page URL composed by the redirect transport. -/
structure PaymentUrl where
  origin : String
  address : String
  redirectUrl : String
  memo : String
  amount : Option JSNum
  currency : Option String
  deriving Repr, DecidableEq

/-- Side effects of the payment flows, recorded in source order. -/
inductive Effect
  | startTimer (t durationMs : Nat)
  | clearTimer (t : Nat)
  | setItem (key : String) (r : StoredRecord)
  | removeItem (key : String)
  | addVisListener
  | removeVisListener
  | replaceUrl
  | navigate (u : PaymentUrl)
  | postMessage (m : PaymentRequestMessage)
  deriving Repr, DecidableEq

/-- The browser-side state for one in-flight payment request. -/
structure World where
  promise : PromiseState
  storage : List (String × StoredRecord)
  activeTimers : List Nat
  nextTimer : Nat
  successListeners : Nat
  cancelListeners : Nat
  visListeners : Nat
  urlParams : UrlParams
  historyEntries : Nat
  now : Nat
  testEnv : Bool
  deriving Repr, DecidableEq

/-- The `process.env.NODE_ENV === 'test' ? TEST_TIMEOUT_MS :
PAYMENT_TIMEOUT_MS` duration selection. -/
def timeoutDuration (w : World) : Nat :=
  if w.testEnv then TEST_TIMEOUT_MS else PAYMENT_TIMEOUT_MS

/-! ## parseInt(s, 10), as used on the chainId URL parameter -/

/-- Value of the leading decimal-digit run; `none` models `NaN`. -/
def digitsPrefixVal (l : List Char) : Option Nat :=
  let ds := l.takeWhile Char.isDigit
  if ds = [] then none else some (digitsVal ds)

/-- JavaScript `parseInt(s, 10)`: skip leading whitespace, optional sign,
longest digit prefix; no digits means `NaN` (modelled as `none`). -/
def jsParseInt10 (s : String) : Option Int :=
  let l := s.data.dropWhile (fun c => c = ' ' || c = '\t' || c = '\n' || c = '\r')
  match l with
  | '-' :: r => (digitsPrefixVal r).map (fun n => -(n : Int))
  | '+' :: r => (digitsPrefixVal r).map (fun n => (n : Int))
  | r => (digitsPrefixVal r).map (fun n => (n : Int))

/-! ## Redirect transport (MessageManager.ts lines 353-489) -/

/-- How `handleReturn` settles the promise once the memo matched: a truthy
`txHash` and `chainId` resolve with `{txHash, chainId: parseInt(chainId, 10)}`
whatever `status` says; otherwise `status === 'cancelled'` rejects with the
cancellation error; anything else rejects with the generic failure. -/
def returnOutcome (p : UrlParams) : PromiseState :=
  if jsTruthyStr p.txHash && jsTruthyStr p.chainId then
    .resolved ⟨p.txHash.getD "", jsParseInt10 (p.chainId.getD "")⟩
  else if p.status = some "cancelled" then
    .rejected .paymentCancelled
  else
    .rejected .paymentFailed

/-- The `handleReturn` closure of `setupReturnUrlHandler` (lines 422-452),
for the request correlated by `memo`.  On a memo match it strips the query
string via `history.replaceState` (no history entry added), removes the
stored record and the visibility listener, and settles; on a mismatch it
does nothing at all.  Note that it does not clear the cleanup timeout. -/
def handleReturn (memo : String) (w : World) : World × List Effect :=
  let params := w.urlParams
  if params.memo = some memo then
    ({ w with urlParams := UrlParams.empty,
              storage := removeItem STORAGE_KEY w.storage,
              visListeners := w.visListeners - 1,
              promise := w.promise.settle (returnOutcome params) },
     [.replaceUrl, .removeItem STORAGE_KEY, .removeVisListener])
  else (w, [])

/-- The cleanup-timeout callback of `setupReturnUrlHandler` (lines 468-475)
for handle `t`: if the timer is still scheduled it fires, removing the
visibility listener, rejecting with the timeout error (a no-op on a settled
promise), and clearing the stored record.  A cleared timer never fires. -/
def redirectTimerFire (t : Nat) (w : World) : World :=
  if t ∈ w.activeTimers then
    { w with activeTimers := w.activeTimers.erase t,
             visListeners := w.visListeners - 1,
             promise := w.promise.settle (.rejected .paymentTimedOut),
             storage := removeItem STORAGE_KEY w.storage }
  else w

/-- Source `setupReturnUrlHandler` (lines 416-489): registers the visibility
listener, immediately runs `handleReturn` for the same-document case,
schedules the cleanup timeout, and patches the stored record (if still
present) with the new timeout handle. -/
def setupReturnUrlHandler (memo : String) (w : World) : World × List Effect :=
  let w1 := { w with visListeners := w.visListeners + 1 }
  let hr := handleReturn memo w1
  let w2 := hr.1
  let t := w2.nextTimer
  let dur := timeoutDuration w2
  let w3 := { w2 with nextTimer := t + 1, activeTimers := (t :: w2.activeTimers) }
  match getItem STORAGE_KEY w3.storage with
  | some d =>
    let d2 := { d with timeoutId := some t }
    ({ w3 with storage := setItem STORAGE_KEY d2 w3.storage },
     .addVisListener :: hr.2 ++ [.startTimer t dur, .setItem STORAGE_KEY d2])
  | none =>
    (w3, .addVisListener :: hr.2 ++ [.startTimer t dur])

/-- The stale-record check at the top of `handleRedirectPayment` (lines
365-377): if a pending record is stored and carries a truthy timeout handle,
clear that timeout. -/
def clearStaleTimeout (w : World) : World × List Effect :=
  match getItem STORAGE_KEY w.storage with
  | some r =>
    match r.timeoutId with
    | some t =>
      if t ≠ 0 then
        ({ w with activeTimers := w.activeTimers.erase t },
         [Effect.clearTimer t])
      else (w, ([] : List Effect))
    | none => (w, [])
  | none => (w, [])

/-- Source `handleRedirectPayment` (lines 353-414): derives the memo (a falsy
payload memo falls back to `createValidMemoFromUUID(address)`, whose failure
throws out of the promise executor before any effect), clears a stale
pending record's truthy timeout handle, persists the new record under
`STORAGE_KEY`, installs the return handler before navigating, and navigates
to the composed payment URL. -/
def handleRedirectPayment (allowedOrigin : String) (msg : PaymentRequestMessage)
    (redirectUrl : String) (w : World) : World × List Effect :=
  match (if jsTruthyStr msg.memo then Except.ok (msg.memo.getD "")
         else createValidMemoFromUUID msg.address) with
  | .error e => ({ w with promise := w.promise.settle (.rejected e) }, [])
  | .ok memo =>
    let cleared := clearStaleTimeout w
    let w1 := cleared.1
    let rec0 : StoredRecord :=
      { timestamp := w1.now, address := msg.address, amount := msg.amount,
        currency := msg.currency, memo := memo, redirectUrl := redirectUrl,
        timeoutId := none }
    let w2 := { w1 with storage := setItem STORAGE_KEY rec0 w1.storage }
    let su := setupReturnUrlHandler memo w2
    let url : PaymentUrl :=
      { origin := allowedOrigin, address := msg.address,
        redirectUrl := redirectUrl, memo := memo, amount := msg.amount,
        currency := msg.currency }
    (su.1, cleared.2 ++ [Effect.setItem STORAGE_KEY rec0] ++ su.2 ++
           [Effect.navigate url])

/-! ## In-frame transport (MessageManager.ts lines 309-351, 491-500) -/

/-- The `setupPaymentTimeout` callback for handle `t`: if still scheduled it
fires, deleting both payment listener kinds and rejecting with the timeout
error. -/
def paymentTimeoutFire (t : Nat) (w : World) : World :=
  if t ∈ w.activeTimers then
    { w with activeTimers := w.activeTimers.erase t,
             successListeners := 0, cancelListeners := 0,
             promise := w.promise.settle (.rejected .paymentTimedOut) }
  else w

/-- Source `handleIframePayment` (lines 309-351): schedules the payment timeout,
registers the success and cancellation listeners, and sends the request to
the parent.  `sendMessageToParent` throws when the target origin fails the
guard or when no distinct parent window exists (`parentDiffers = false`);
the catch block then clears the timer, deletes both listener kinds, and
rejects with the thrown error. -/
def handleIframePayment (allowedOrigin : String) (parentDiffers : Bool)
    (msg : PaymentRequestMessage) (w : World) : World × List Effect :=
  let t := w.nextTimer
  let dur := timeoutDuration w
  let w1 := { w with
    nextTimer := t + 1, activeTimers := (t :: w.activeTimers),
    successListeners := w.successListeners + 1,
    cancelListeners := w.cancelListeners + 1 }
  if !(isOriginAllowed allowedOrigin allowedOrigin) then
    ({ w1 with activeTimers := w1.activeTimers.erase t,
               successListeners := 0, cancelListeners := 0,
               promise := w1.promise.settle
                 (.rejected (.invalidOrigin allowedOrigin allowedOrigin)) },
     [.startTimer t dur])
  else if !parentDiffers then
    ({ w1 with activeTimers := w1.activeTimers.erase t,
               successListeners := 0, cancelListeners := 0,
               promise := w1.promise.settle (.rejected .notInIframe) },
     [.startTimer t dur])
  else
    (w1, [.startTimer t dur, .postMessage msg])

/-! ## Inbound window messages (setupMessageListener, lines 95-113) -/

/-- The data of an inbound `message` event, keyed by `message.type`.  Kinds
other than the two payment outcomes have no listeners registered in the
modelled single-payment-request world. -/
inductive MsgData
  | paymentSuccess (p : Payment)
  | paymentCancelled
  | other (t : String)
  deriving Repr, DecidableEq

/-- An inbound window message: its sender origin and its data. -/
structure WindowMessage where
  origin : String
  data : MsgData
  deriving Repr, DecidableEq

/-- The `message` event handler installed by `setupMessageListener`: a sender
origin failing the Origin Guard returns before anything else happens; an
allowed message fans out to every listener of its kind (each payment listener
clears the request's timeout `t0`, deletes the sibling kind, and settles) and
then deletes its own kind.  Returns the updated world and the number of
listener callbacks invoked. -/
def handleWindowMessage (allowedOrigin : String) (t0 : Nat) (m : WindowMessage)
    (w : World) : World × Nat :=
  if !(isOriginAllowed allowedOrigin m.origin) then
    (w, 0)
  else
    match m.data with
    | .paymentSuccess p =>
      if w.successListeners = 0 then (w, 0)
      else
        ({ w with activeTimers := w.activeTimers.erase t0,
                  cancelListeners := 0, successListeners := 0,
                  promise := w.promise.settle (.resolved p) },
         w.successListeners)
    | .paymentCancelled =>
      if w.cancelListeners = 0 then (w, 0)
      else
        ({ w with activeTimers := w.activeTimers.erase t0,
                  successListeners := 0, cancelListeners := 0,
                  promise := w.promise.settle (.rejected .paymentCancelled) },
         w.cancelListeners)
    | .other _ => (w, 0)

/-! ## Event machines for the two transports -/

/-- Events the in-frame transport can observe after the request is sent. -/
inductive IEvent
  | msg (m : WindowMessage)
  | timerFire
  deriving Repr, DecidableEq

/-- One in-frame step: an inbound window message, or the payment timeout
with handle `t0` firing. -/
def istep (allowedOrigin : String) (t0 : Nat) (w : World) : IEvent → World
  | .msg m => (handleWindowMessage allowedOrigin t0 m w).1
  | .timerFire => paymentTimeoutFire t0 w

/-- Run of the in-frame machine over an event sequence. -/
def irun (allowedOrigin : String) (t0 : Nat) (w : World) (evs : List IEvent) :
    World :=
  evs.foldl (istep allowedOrigin t0) w

/-- Events the redirect transport can observe after navigation: the browser
setting the page URL, a visibility transition to visible, or the cleanup
timeout firing. -/
inductive REvent
  | setUrl (p : UrlParams)
  | visible
  | timerFire
  deriving Repr, DecidableEq

/-- One redirect step, for the request correlated by `memo` with cleanup
timer `t0`: the visibility handler runs `handleReturn` only while it is
still registered. -/
def rstep (memo : String) (t0 : Nat) (w : World) : REvent → World
  | .setUrl p => { w with urlParams := p }
  | .visible => if w.visListeners = 0 then w else (handleReturn memo w).1
  | .timerFire => redirectTimerFire t0 w

/-- Run of the redirect machine over an event sequence. -/
def rrun (memo : String) (t0 : Nat) (w : World) (evs : List REvent) : World :=
  evs.foldl (rstep memo t0) w

/-- Source `sendPaymentRequest` (lines 253-307): validation, transport selection,
and the chosen transport's synchronous part.  `inIframe` models
`isInIframe()` and `parentDiffers` models `win.parent !== win`. -/
def sendPaymentRequest (allowedOrigin : String) (inIframe parentDiffers : Bool)
    (address : String) (config : PaymentConfig) (w : World) :
    World × List Effect :=
  match routePayment address config inIframe with
  | .rejectedEarly e => ({ w with promise := w.promise.settle (.rejected e) }, [])
  | .inFrame msg => handleIframePayment allowedOrigin parentDiffers msg w
  | .redirect msg u => handleRedirectPayment allowedOrigin msg u w

/-- The promise is pending or holds one of the in-frame transport's
observable outcomes: success, cancellation, or timeout. -/
def inFrameOutcome (s : PromiseState) : Prop :=
  s = .pending ∨ (∃ p, s = .resolved p) ∨ s = .rejected .paymentCancelled ∨
    s = .rejected .paymentTimedOut

/-- The promise is pending or holds one of the redirect transport's
observable outcomes: the in-frame ones plus the generic failure. -/
def redirectOutcome (s : PromiseState) : Prop :=
  inFrameOutcome s ∨ s = .rejected .paymentFailed

/-- A concrete fresh browser state, used by the witness instantiations. -/
def sampleWorld : World :=
  { promise := .pending, storage := [], activeTimers := [], nextTimer := 1,
    successListeners := 0, cancelListeners := 0, visListeners := 0,
    urlParams := UrlParams.empty, historyEntries := 1, now := 1000,
    testEnv := true }

/-! ## Helper lemmas -/

theorem settle_of_ne_pending {s : PromiseState} (o : PromiseState)
    (h : s ≠ .pending) : s.settle o = s := by
  cases s with
  | pending => exact absurd rfl h
  | resolved p => rfl
  | rejected e => rfl

theorem getItem_removeItem (k : String) (st : List (String × StoredRecord)) :
    getItem k (removeItem k st) = none := by
  induction st with
  | nil => rfl
  | cons kv rest ih =>
    by_cases h : kv.1 = k
    · simpa [removeItem, h] using ih
    · simpa [removeItem, getItem, h] using ih

/-! ## Claim theorems -/

/-- C6 counterexample: a payment whose only flaw is an absent currency is
rejected with the invalid-currency error, so the currency check is not
skipped when the currency is not provided, contrary to the claim. -/
theorem currency_check_not_skipped_when_absent :
    validatePayment ⟨some (.fin 5), none, none, none⟩ =
      some (.invalidCurrency "undefined" fiatCurrencyCodes) := by decide

/-- C6 (amended): the currency is always validated, whether provided or not:
whenever it is not a recognized code — including the absent case, which
`isValidFiatCurrency` maps to false — the promise rejects with the
invalid-currency error naming the received value (`"undefined"` when absent)
and the allowed set, with no effect performed and the rest of the world
untouched. -/
theorem currency_validation_rejects_first (ao : String) (inIframe pd : Bool)
    (addr : String) (cfg : PaymentConfig) (w : World)
    (hm : jsTruthyStr cfg.memo = false ∨ isValidMemoSize (cfg.memo.getD "") = true)
    (hc : isValidFiatCurrency cfg.currency = false)
    (hp : w.promise = .pending) :
    sendPaymentRequest ao inIframe pd addr cfg w =
      ({ w with promise := (.rejected
          (.invalidCurrency (showOptString cfg.currency) fiatCurrencyCodes)) }, []) := by
  have hv : validatePayment cfg =
      some (.invalidCurrency (showOptString cfg.currency) fiatCurrencyCodes) := by
    unfold validatePayment
    rcases hm with h | h
    · simp [h, hc]
    · simp [h, hc]
  unfold sendPaymentRequest routePayment
  rw [hv]
  simp [hp, PromiseState.settle]

/-- C6 witness: the amended theorem applied to an absent currency in a fresh
world. -/
theorem currency_validation_rejects_first_witness :
    sendPaymentRequest "https://yodl.me" true true "0xabc"
      ⟨some (.fin 5), none, none, none⟩ sampleWorld =
      ({ sampleWorld with promise := (.rejected
          (.invalidCurrency "undefined" fiatCurrencyCodes)) }, []) :=
  currency_validation_rejects_first "https://yodl.me" true true "0xabc"
    ⟨some (.fin 5), none, none, none⟩ sampleWorld (Or.inl (by decide))
    (by decide) (by decide)

/-- C7 counterexample: an absent amount is rejected rather than skipped, and
NaN and positive infinity pass the amount check rather than being rejected,
contrary to the claim. -/
theorem amount_check_mismatches :
    validatePayment ⟨none, some "USD", none, none⟩ = some .invalidAmount ∧
    validatePayment ⟨some .nan, some "USD", none, none⟩ = none ∧
    validatePayment ⟨some .posInf, some "USD", none, none⟩ = none := by decide

/-- C7 (amended): the amount check rejects exactly when the amount is absent
(not of number type) or satisfies the JS comparison `amount <= 0`; hence an
absent amount rejects, a finite amount rejects iff it is at most zero, and
NaN and positive infinity pass the check (NaN comparisons are false).  When
it rejects it does so with the invalid-amount error before any side effect,
assuming the earlier memo and currency checks pass. -/
theorem amount_validation_characterization (ao : String) (inIframe pd : Bool)
    (addr : String) (cfg : PaymentConfig) (w : World)
    (hm : jsTruthyStr cfg.memo = false ∨ isValidMemoSize (cfg.memo.getD "") = true)
    (hc : isValidFiatCurrency cfg.currency = true)
    (hp : w.promise = .pending) :
    (amountIsInvalid cfg.amount = true →
       sendPaymentRequest ao inIframe pd addr cfg w =
         ({ w with promise := .rejected .invalidAmount }, [])) ∧
    (amountIsInvalid cfg.amount = false → validatePayment cfg = none) ∧
    amountIsInvalid none = true ∧
    amountIsInvalid (some .nan) = false ∧
    amountIsInvalid (some .posInf) = false ∧
    (∀ q : ℚ, amountIsInvalid (some (.fin q)) = true ↔ q ≤ 0) := by
  refine ⟨?_, ?_, by decide, by decide, by decide, ?_⟩
  · intro ha
    have hv : validatePayment cfg = some .invalidAmount := by
      unfold validatePayment
      rcases hm with h | h
      · simp [h, hc, ha]
      · simp [h, hc, ha]
    unfold sendPaymentRequest routePayment
    rw [hv]
    simp [hp, PromiseState.settle]
  · intro ha
    unfold validatePayment
    rcases hm with h | h
    · simp [h, hc, ha]
    · simp [h, hc, ha]
  · intro q
    simp [amountIsInvalid, JSNum.leZero]

/-- C7 witness: the amended theorem applied to an absent amount in a fresh
world. -/
theorem amount_validation_characterization_witness :
    sendPaymentRequest "https://yodl.me" true true "0xabc"
      ⟨none, some "USD", none, none⟩ sampleWorld =
      ({ sampleWorld with promise := .rejected .invalidAmount }, []) :=
  (amount_validation_characterization "https://yodl.me" true true "0xabc"
    ⟨none, some "USD", none, none⟩ sampleWorld (Or.inl (by decide))
    (by decide) (by decide)).1 (by decide)

/-- C10: outside an iframe, with a redirect URL, a valid currency and amount
and no memo, an address whose hyphen-stripped form exceeds 32 UTF-8 bytes
makes the promise reject with the memo-too-long error, with the world
otherwise untouched and an empty effect trace — so before any record is
written to session storage and before any navigation. -/
theorem oversized_derived_memo_rejects_early (ao : String) (pd : Bool)
    (addr : String) (cfg : PaymentConfig) (w : World)
    (hmemo : cfg.memo = none)
    (hc : isValidFiatCurrency cfg.currency = true)
    (ha : amountIsInvalid cfg.amount = false)
    (hr : jsTruthyStr cfg.redirectUrl = true)
    (hp : w.promise = .pending)
    (hlen : 32 < (removeHyphens addr).utf8ByteSize) :
    sendPaymentRequest ao false pd addr cfg w =
      ({ w with promise := .rejected .memoTooLong }, []) := by
  have hv : validatePayment cfg = none := by
    unfold validatePayment
    simp [hmemo, jsTruthyStr, hc, ha]
  have hnempty : ¬(removeHyphens addr = "") := by
    intro h
    rw [h] at hlen
    exact absurd hlen (by decide)
  have hsize : isValidMemoSize (removeHyphens addr) = false := by
    simp only [isValidMemoSize, decide_eq_false_iff_not]
    omega
  have hderive : createValidMemoFromUUID addr = .error .memoTooLong := by
    unfold createValidMemoFromUUID
    simp [hnempty, hsize]
  unfold sendPaymentRequest routePayment
  rw [hv]
  simp only [Bool.false_eq_true, if_false, hr, if_true]
  unfold handleRedirectPayment
  rw [hmemo]
  simp only [jsTruthyStr, Bool.false_eq_true, if_false]
  rw [hderive]
  simp [hp, PromiseState.settle]

/-- C10 witness: a standard 42-character 0x-prefixed address. -/
theorem oversized_derived_memo_rejects_early_witness :
    sendPaymentRequest "https://yodl.me" false true
      "0x1234567890123456789012345678901234567890"
      ⟨some (.fin 5), some "USD", none, some "https://app.example/cb"⟩
      sampleWorld =
      ({ sampleWorld with promise := .rejected .memoTooLong }, []) :=
  oversized_derived_memo_rejects_early "https://yodl.me" true
    "0x1234567890123456789012345678901234567890"
    ⟨some (.fin 5), some "USD", none, some "https://app.example/cb"⟩
    sampleWorld (by decide) (by decide) (by decide) (by decide) (by decide)
    (by decide)

/-- C8: when the return handler runs and the URL's memo parameter differs
from the pending request's memo, it performs no action at all: the world —
stored record, URL, history, visibility listener, promise — is returned
unchanged and the effect trace is empty. -/
theorem mismatched_memo_ignored (memo : String) (w : World)
    (h : ¬(w.urlParams.memo = some memo)) :
    handleReturn memo w = (w, []) := by
  unfold handleReturn
  rw [if_neg h]

/-- C8 witness: a return URL carrying a different memo is ignored. -/
theorem mismatched_memo_ignored_witness :
    handleReturn "abc123"
      { sampleWorld with urlParams := ⟨some "other", none, some "0xdead", some "1"⟩ } =
      ({ sampleWorld with urlParams := ⟨some "other", none, some "0xdead", some "1"⟩ }, []) :=
  mismatched_memo_ignored "abc123"
    { sampleWorld with urlParams := ⟨some "other", none, some "0xdead", some "1"⟩ }
    (by decide)

/-- C3: an inbound window message whose sender origin fails the Origin Guard
is dropped silently: no listener is invoked, none is removed, no error is
surfaced, and the world is exactly the one of a run in which the message
never arrived. -/
theorem disallowed_origin_message_dropped (ao : String) (t0 : Nat)
    (m : WindowMessage) (w : World)
    (h : isOriginAllowed ao m.origin = false) :
    handleWindowMessage ao t0 m w = (w, 0) := by
  unfold handleWindowMessage
  simp [h]

/-- C3 witness: a message from a foreign origin reaches no listener even
while both payment listeners are registered. -/
theorem disallowed_origin_message_dropped_witness :
    handleWindowMessage "https://yodl.me" 1
      ⟨"https://evil.com", .paymentSuccess ⟨"0xdead", some 1⟩⟩
      { sampleWorld with successListeners := 1, cancelListeners := 1,
                         activeTimers := [1] } =
      ({ sampleWorld with successListeners := 1, cancelListeners := 1,
                          activeTimers := [1] }, 0) :=
  disallowed_origin_message_dropped "https://yodl.me" 1
    ⟨"https://evil.com", .paymentSuccess ⟨"0xdead", some 1⟩⟩
    { sampleWorld with successListeners := 1, cancelListeners := 1,
                       activeTimers := [1] }
    (by decide)

/-- C2: whenever the return handler runs with the URL's memo equal to the
pending memo, it strips the query parameters without adding a history entry,
removes the persisted record and the visibility listener, emits exactly the
cleanup effects, and settles a pending promise as follows: both `txHash` and
`chainId` present (non-empty) resolve with the hash and the base-10-parsed
chain id regardless of any `status` value; otherwise `status = 'cancelled'`
rejects with the cancellation error; otherwise it rejects with the generic
failure. -/
theorem matching_memo_return (memo : String) (w : World)
    (h : w.urlParams.memo = some memo) :
    (handleReturn memo w).1.urlParams = UrlParams.empty ∧
    (handleReturn memo w).1.historyEntries = w.historyEntries ∧
    getItem STORAGE_KEY (handleReturn memo w).1.storage = none ∧
    (handleReturn memo w).1.visListeners = w.visListeners - 1 ∧
    (handleReturn memo w).2 =
      [.replaceUrl, .removeItem STORAGE_KEY, .removeVisListener] ∧
    (w.promise = .pending →
      (jsTruthyStr w.urlParams.txHash = true → jsTruthyStr w.urlParams.chainId = true →
        (handleReturn memo w).1.promise =
          .resolved ⟨w.urlParams.txHash.getD "",
                     jsParseInt10 (w.urlParams.chainId.getD "")⟩) ∧
      ((jsTruthyStr w.urlParams.txHash && jsTruthyStr w.urlParams.chainId) = false →
        w.urlParams.status = some "cancelled" →
        (handleReturn memo w).1.promise = .rejected .paymentCancelled) ∧
      ((jsTruthyStr w.urlParams.txHash && jsTruthyStr w.urlParams.chainId) = false →
        ¬(w.urlParams.status = some "cancelled") →
        (handleReturn memo w).1.promise = .rejected .paymentFailed)) := by
  unfold handleReturn
  rw [if_pos h]
  refine ⟨rfl, rfl, getItem_removeItem _ _, rfl, rfl, ?_⟩
  intro hp
  refine ⟨?_, ?_, ?_⟩
  · intro htx hch
    show w.promise.settle (returnOutcome w.urlParams) = _
    rw [hp]
    unfold returnOutcome
    simp [htx, hch, PromiseState.settle]
  · intro hcond hst
    show w.promise.settle (returnOutcome w.urlParams) = _
    rw [hp]
    unfold returnOutcome
    simp [hcond, hst, PromiseState.settle]
  · intro hcond hst
    show w.promise.settle (returnOutcome w.urlParams) = _
    rw [hp]
    unfold returnOutcome
    simp [hcond, hst, PromiseState.settle]

/-- C2 witness: a matching return URL carrying `txHash=0xdead&chainId=1`
resolves with the parsed chain id and clears the stored record. -/
theorem matching_memo_return_witness :
    (handleReturn "abc123"
      { sampleWorld with
          urlParams := ⟨some "abc123", none, some "0xdead", some "1"⟩,
          storage := [(STORAGE_KEY, ⟨1000, "0xabc", some (.fin 5), some "USD",
                        "abc123", "https://app.example/cb", some 5⟩)],
          visListeners := 1 }).1.promise = .resolved ⟨"0xdead", some 1⟩ ∧
    getItem STORAGE_KEY (handleReturn "abc123"
      { sampleWorld with
          urlParams := ⟨some "abc123", none, some "0xdead", some "1"⟩,
          storage := [(STORAGE_KEY, ⟨1000, "0xabc", some (.fin 5), some "USD",
                        "abc123", "https://app.example/cb", some 5⟩)],
          visListeners := 1 }).1.storage = none := by
  have h := matching_memo_return "abc123"
    { sampleWorld with
        urlParams := ⟨some "abc123", none, some "0xdead", some "1"⟩,
        storage := [(STORAGE_KEY, ⟨1000, "0xabc", some (.fin 5), some "USD",
                      "abc123", "https://app.example/cb", some 5⟩)],
        visListeners := 1 } (by decide)
  exact ⟨(h.2.2.2.2.2 (by decide)).1 (by decide) (by decide), h.2.2.1⟩

/-- C4 counterexample: in the redirect transport, a memo-matching return URL
delivers the success outcome yet leaves the cleanup timeout scheduled — the
timer with handle 5 is still active after the promise has resolved, so the
claim that every pre-timeout terminal outcome cancels the pending timer is
false for the redirect path. -/
theorem redirect_return_leaves_timer_scheduled :
    ((handleReturn "abc123"
      { sampleWorld with
          urlParams := ⟨some "abc123", none, some "0xdead", some "1"⟩,
          storage := [(STORAGE_KEY, ⟨1000, "0xabc", some (.fin 5), some "USD",
                        "abc123", "https://app.example/cb", some 5⟩)],
          activeTimers := [5], visListeners := 1 }).1.promise =
        .resolved ⟨"0xdead", some 1⟩) ∧
    ((handleReturn "abc123"
      { sampleWorld with
          urlParams := ⟨some "abc123", none, some "0xdead", some "1"⟩,
          storage := [(STORAGE_KEY, ⟨1000, "0xabc", some (.fin 5), some "USD",
                        "abc123", "https://app.example/cb", some 5⟩)],
          activeTimers := [5], visListeners := 1 }).1.activeTimers = [5]) := by
  decide

/-- C4 (amended): in the in-frame path every terminal outcome delivered
before the timeout cancels the pending timer (`clearTimeout` runs, removing
handle `t0`); in the redirect path the return handler does not cancel the
cleanup timer — it leaves the scheduled timers untouched — but the late
firing of that timer cannot change an already-settled promise. -/
theorem timer_cancellation_on_terminal (ao : String) (t0 : Nat) (p : Payment)
    (orig memo : String) (w : World) :
    (isOriginAllowed ao orig = true → ¬(w.successListeners = 0) →
      (handleWindowMessage ao t0 ⟨orig, .paymentSuccess p⟩ w).1.activeTimers =
        w.activeTimers.erase t0) ∧
    (isOriginAllowed ao orig = true → ¬(w.cancelListeners = 0) →
      (handleWindowMessage ao t0 ⟨orig, .paymentCancelled⟩ w).1.activeTimers =
        w.activeTimers.erase t0) ∧
    (w.urlParams.memo = some memo →
      (handleReturn memo w).1.activeTimers = w.activeTimers) ∧
    (w.promise ≠ .pending → (redirectTimerFire t0 w).promise = w.promise) := by
  refine ⟨?_, ?_, ?_, ?_⟩
  · intro ho hl
    unfold handleWindowMessage
    simp [ho, hl]
  · intro ho hl
    unfold handleWindowMessage
    simp [ho, hl]
  · intro h
    unfold handleReturn
    rw [if_pos h]
  · intro h
    unfold redirectTimerFire
    split
    · exact settle_of_ne_pending _ h
    · rfl

/-- C4 witness: a success message with both listeners registered clears the
in-frame payment timer, and a late redirect timer firing leaves a resolved
promise resolved. -/
theorem timer_cancellation_on_terminal_witness :
    (handleWindowMessage "https://yodl.me" 1
      ⟨"https://yodl.me", .paymentSuccess ⟨"0xdead", some 1⟩⟩
      { sampleWorld with successListeners := 1, cancelListeners := 1,
                         activeTimers := [1] }).1.activeTimers = [] ∧
    (redirectTimerFire 5
      { sampleWorld with promise := .resolved ⟨"0xdead", some 1⟩,
                         activeTimers := [5] }).promise =
      .resolved ⟨"0xdead", some 1⟩ := by
  have h1 := (timer_cancellation_on_terminal "https://yodl.me" 1
    ⟨"0xdead", some 1⟩ "https://yodl.me" "m"
    { sampleWorld with successListeners := 1, cancelListeners := 1,
                       activeTimers := [1] }).1 (by decide) (by decide)
  have h2 := (timer_cancellation_on_terminal "https://yodl.me" 5
    ⟨"0xdead", some 1⟩ "https://yodl.me" "m"
    { sampleWorld with promise := .resolved ⟨"0xdead", some 1⟩,
                       activeTimers := [5] }).2.2.2 (by decide)
  exact ⟨h1, h2⟩

theorem getItem_setItem (k : String) (v : StoredRecord)
    (st : List (String × StoredRecord)) :
    getItem k (setItem k v st) = some v := by
  induction st with
  | nil => simp [setItem, getItem]
  | cons kv rest ih =>
    by_cases h : kv.1 = k
    · simp [setItem, getItem, h]
    · simp [setItem, getItem, h, ih]

theorem setItem_keys (k k2 : String) (v : StoredRecord)
    (st : List (String × StoredRecord))
    (h : k2 ∈ (setItem k v st).map Prod.fst) :
    k2 ∈ st.map Prod.fst ∨ k2 = k := by
  induction st with
  | nil =>
    simp [setItem] at h
    exact Or.inr h
  | cons kv rest ih =>
    by_cases hk : kv.1 = k
    · simp only [setItem, hk, if_true, List.map_cons, List.mem_cons] at h
      rcases h with h | h
      · exact Or.inr h
      · exact Or.inl (by rw [List.map_cons]; exact List.mem_cons_of_mem _ h)
    · simp only [setItem, hk, if_false, List.map_cons, List.mem_cons] at h
      rcases h with h | h
      · exact Or.inl (by rw [List.map_cons, h]; exact List.mem_cons_self _ _)
      · rcases ih h with h2 | h2
        · exact Or.inl (by rw [List.map_cons]; exact List.mem_cons_of_mem _ h2)
        · exact Or.inr h2

theorem setItem_nodup (k : String) (v : StoredRecord)
    (st : List (String × StoredRecord))
    (h : (st.map Prod.fst).Nodup) : ((setItem k v st).map Prod.fst).Nodup := by
  induction st with
  | nil => simp [setItem]
  | cons kv rest ih =>
    simp only [List.map_cons, List.nodup_cons] at h
    by_cases hk : kv.1 = k
    · simp only [setItem, hk, if_true, List.map_cons, List.nodup_cons]
      exact ⟨by rw [← hk]; exact h.1, h.2⟩
    · simp only [setItem, hk, if_false, List.map_cons, List.nodup_cons]
      refine ⟨?_, ih h.2⟩
      intro hmem
      rcases setItem_keys k kv.1 v rest hmem with h2 | h2
      · exact h.1 h2
      · exact hk h2

/-- Shape of `handleRedirectPayment` in the superseding scenario: a stale
record with a truthy timeout handle is pending, the derived memo is `mv`,
and the current URL does not already carry that memo.  The stale timeout is
cleared first, then the new record is written, the return handler installed,
the new cleanup timer scheduled, the record patched with its handle, and the
navigation performed. -/
theorem handleRedirectPayment_shape (ao u mv : String)
    (msg : PaymentRequestMessage) (w : World) (r : StoredRecord) (t : Nat)
    (hd : (if jsTruthyStr msg.memo then Except.ok (msg.memo.getD "")
           else createValidMemoFromUUID msg.address) = Except.ok mv)
    (hr : getItem STORAGE_KEY w.storage = some r)
    (ht : r.timeoutId = some t) (htz : t ≠ 0)
    (hurl : ¬(w.urlParams.memo = some mv)) :
    handleRedirectPayment ao msg u w =
      ({ w with
          activeTimers := (w.nextTimer :: w.activeTimers.erase t),
          nextTimer := w.nextTimer + 1,
          visListeners := w.visListeners + 1,
          storage := setItem STORAGE_KEY
            ⟨w.now, msg.address, msg.amount, msg.currency, mv, u, some w.nextTimer⟩
            (setItem STORAGE_KEY
              ⟨w.now, msg.address, msg.amount, msg.currency, mv, u, none⟩
              w.storage) },
       [.clearTimer t,
        .setItem STORAGE_KEY
          ⟨w.now, msg.address, msg.amount, msg.currency, mv, u, none⟩,
        .addVisListener,
        .startTimer w.nextTimer (timeoutDuration w),
        .setItem STORAGE_KEY
          ⟨w.now, msg.address, msg.amount, msg.currency, mv, u, some w.nextTimer⟩,
        .navigate ⟨ao, msg.address, u, mv, msg.amount, msg.currency⟩]) := by
  unfold handleRedirectPayment clearStaleTimeout
  rw [hd]
  dsimp only
  rw [hr]
  dsimp only
  rw [ht]
  dsimp only
  rw [if_pos htz]
  unfold setupReturnUrlHandler handleReturn
  dsimp only
  rw [if_neg hurl]
  dsimp only
  rw [getItem_setItem]
  dsimp only [timeoutDuration]
  rfl

/-- C5: at most one pending-request record can exist (every write targets the
single fixed key `STORAGE_KEY`, so key-uniqueness of the store is preserved
and no key outside the original ones plus `STORAGE_KEY` ever appears), and
starting a new redirect payment while a record with a timeout handle is
pending cancels that stale timeout as its very first effect, before the new
record is written; the superseded handle is no longer scheduled, so its
firing is a complete no-op and produces no spurious timeout error. -/
theorem single_slot_and_stale_timer_cancelled (ao u mv : String)
    (msg : PaymentRequestMessage) (w : World) (r : StoredRecord) (t : Nat)
    (hd : (if jsTruthyStr msg.memo then Except.ok (msg.memo.getD "")
           else createValidMemoFromUUID msg.address) = Except.ok mv)
    (hr : getItem STORAGE_KEY w.storage = some r)
    (ht : r.timeoutId = some t) (htz : t ≠ 0)
    (hurl : ¬(w.urlParams.memo = some mv))
    (hfresh : t ≠ w.nextTimer)
    (hnd : w.activeTimers.Nodup) :
    (handleRedirectPayment ao msg u w).2.head? = some (.clearTimer t) ∧
    t ∉ (handleRedirectPayment ao msg u w).1.activeTimers ∧
    redirectTimerFire t (handleRedirectPayment ao msg u w).1 =
      (handleRedirectPayment ao msg u w).1 ∧
    (handleRedirectPayment ao msg u w).1.promise = w.promise ∧
    getItem STORAGE_KEY (handleRedirectPayment ao msg u w).1.storage =
      some ⟨w.now, msg.address, msg.amount, msg.currency, mv, u,
            some w.nextTimer⟩ ∧
    (∀ k, k ∈ ((handleRedirectPayment ao msg u w).1.storage.map Prod.fst) →
      k ∈ (w.storage.map Prod.fst) ∨ k = STORAGE_KEY) ∧
    ((w.storage.map Prod.fst).Nodup →
      ((handleRedirectPayment ao msg u w).1.storage.map Prod.fst).Nodup) := by
  rw [handleRedirectPayment_shape ao u mv msg w r t hd hr ht htz hurl]
  have hnot : t ∉ (w.nextTimer :: w.activeTimers.erase t) := by
    intro hmem
    rcases List.mem_cons.1 hmem with h | h
    · exact hfresh h
    · exact hnd.not_mem_erase h
  refine ⟨rfl, hnot, ?_, rfl, getItem_setItem _ _ _, ?_, ?_⟩
  · unfold redirectTimerFire
    rw [if_neg hnot]
  · intro k hk
    rcases setItem_keys _ _ _ _ hk with h2 | h2
    · exact setItem_keys _ _ _ _ h2
    · exact Or.inr h2
  · intro h
    exact setItem_nodup _ _ _ (setItem_nodup _ _ _ h)

/-- C5 witness: a pending record holding timeout handle 7 is superseded; the
first effect clears handle 7 and it is no longer scheduled afterwards. -/
theorem single_slot_and_stale_timer_cancelled_witness :
    (handleRedirectPayment "https://yodl.me"
      ⟨"0xabc", some (.fin 5), some "USD", some "newmemo"⟩ "https://app.example/cb2"
      { sampleWorld with
          storage := [(STORAGE_KEY, ⟨500, "0xold", some (.fin 1), some "USD",
                        "oldmemo", "https://app.example/cb", some 7⟩)],
          activeTimers := [7], nextTimer := 9 }).2.head? =
      some (.clearTimer 7) ∧
    7 ∉ (handleRedirectPayment "https://yodl.me"
      ⟨"0xabc", some (.fin 5), some "USD", some "newmemo"⟩ "https://app.example/cb2"
      { sampleWorld with
          storage := [(STORAGE_KEY, ⟨500, "0xold", some (.fin 1), some "USD",
                        "oldmemo", "https://app.example/cb", some 7⟩)],
          activeTimers := [7], nextTimer := 9 }).1.activeTimers := by
  have h := single_slot_and_stale_timer_cancelled "https://yodl.me"
    "https://app.example/cb2" "newmemo"
    ⟨"0xabc", some (.fin 5), some "USD", some "newmemo"⟩
    { sampleWorld with
        storage := [(STORAGE_KEY, ⟨500, "0xold", some (.fin 1), some "USD",
                      "oldmemo", "https://app.example/cb", some 7⟩)],
        activeTimers := [7], nextTimer := 9 }
    ⟨500, "0xold", some (.fin 1), some "USD", "oldmemo",
     "https://app.example/cb", some 7⟩ 7
    (by rfl) (by decide) (by decide) (by decide) (by decide) (by decide)
    (by decide)
  exact ⟨h.1, h.2.1⟩

theorem settle_eq_pending_iff (s o : PromiseState) :
    s.settle o = .pending ↔ (s = .pending ∧ o = .pending) := by
  cases s <;> simp [PromiseState.settle]

theorem outcome_settle_inFrame {s o : PromiseState} (hs : inFrameOutcome s)
    (ho : inFrameOutcome o) : inFrameOutcome (s.settle o) := by
  cases s with
  | pending => exact ho
  | resolved p => exact hs
  | rejected e => exact hs

theorem outcome_settle_redirect {s o : PromiseState} (hs : redirectOutcome s)
    (ho : redirectOutcome o) : redirectOutcome (s.settle o) := by
  cases s with
  | pending => exact ho
  | resolved p => exact hs
  | rejected e => exact hs

theorem returnOutcome_ne_pending (p : UrlParams) : returnOutcome p ≠ .pending := by
  unfold returnOutcome
  split
  · simp
  · split <;> simp

theorem returnOutcome_mem (p : UrlParams) : redirectOutcome (returnOutcome p) := by
  unfold returnOutcome
  split
  · exact Or.inl (Or.inr (Or.inl ⟨_, rfl⟩))
  · split
    · exact Or.inl (Or.inr (Or.inr (Or.inl rfl)))
    · exact Or.inr rfl

theorem istep_settled (ao : String) (t0 : Nat) (w : World) (e : IEvent)
    (h : w.promise ≠ .pending) : (istep ao t0 w e).promise = w.promise := by
  cases e with
  | msg m =>
    show (handleWindowMessage ao t0 m w).1.promise = w.promise
    unfold handleWindowMessage
    rcases m with ⟨orig, data⟩
    dsimp only
    by_cases ho : isOriginAllowed ao orig = true
    · simp only [ho, Bool.not_true, Bool.false_eq_true, if_false]
      cases data with
      | paymentSuccess p =>
        dsimp only
        by_cases hl : w.successListeners = 0
        · simp [hl]
        · simp [hl, settle_of_ne_pending _ h]
      | paymentCancelled =>
        dsimp only
        by_cases hl : w.cancelListeners = 0
        · simp [hl]
        · simp [hl, settle_of_ne_pending _ h]
      | other t => rfl
    · have ho2 : isOriginAllowed ao orig = false := by
        revert ho; cases isOriginAllowed ao orig <;> simp
      simp [ho2]
  | timerFire =>
    show (paymentTimeoutFire t0 w).promise = w.promise
    unfold paymentTimeoutFire
    split
    · exact settle_of_ne_pending _ h
    · rfl

theorem rstep_settled (memo : String) (t0 : Nat) (w : World) (e : REvent)
    (h : w.promise ≠ .pending) : (rstep memo t0 w e).promise = w.promise := by
  cases e with
  | setUrl p => rfl
  | visible =>
    show (if w.visListeners = 0 then w else (handleReturn memo w).1).promise =
      w.promise
    split
    · rfl
    · unfold handleReturn
      dsimp only
      split
      · exact settle_of_ne_pending _ h
      · rfl
  | timerFire =>
    show (redirectTimerFire t0 w).promise = w.promise
    unfold redirectTimerFire
    split
    · exact settle_of_ne_pending _ h
    · rfl

theorem istep_timer_inv (ao : String) (t0 : Nat) (w : World) (e : IEvent)
    (h : w.promise = .pending → t0 ∈ w.activeTimers) :
    (istep ao t0 w e).promise = .pending → t0 ∈ (istep ao t0 w e).activeTimers := by
  by_cases hp : w.promise = .pending
  · cases e with
    | msg m =>
      show (handleWindowMessage ao t0 m w).1.promise = .pending →
        t0 ∈ (handleWindowMessage ao t0 m w).1.activeTimers
      unfold handleWindowMessage
      rcases m with ⟨orig, data⟩
      dsimp only
      by_cases ho : isOriginAllowed ao orig = true
      · simp only [ho, Bool.not_true, Bool.false_eq_true, if_false]
        cases data with
        | paymentSuccess p =>
          dsimp only
          by_cases hl : w.successListeners = 0
          · simp only [hl, if_true]
            exact h
          · simp only [hl, if_false]
            intro hq
            rw [settle_eq_pending_iff] at hq
            exact absurd hq.2 (by simp)
        | paymentCancelled =>
          dsimp only
          by_cases hl : w.cancelListeners = 0
          · simp only [hl, if_true]
            exact h
          · simp only [hl, if_false]
            intro hq
            rw [settle_eq_pending_iff] at hq
            exact absurd hq.2 (by simp)
        | other t => exact h
      · have ho2 : isOriginAllowed ao orig = false := by
          revert ho; cases isOriginAllowed ao orig <;> simp
        simp only [ho2, Bool.not_false, if_true]
        exact h
    | timerFire =>
      show (paymentTimeoutFire t0 w).promise = .pending →
        t0 ∈ (paymentTimeoutFire t0 w).activeTimers
      unfold paymentTimeoutFire
      split
      · intro hq
        rw [settle_eq_pending_iff] at hq
        exact absurd hq.2 (by simp)
      · exact h
  · intro hq
    rw [istep_settled ao t0 w e hp] at hq
    exact absurd hq hp

theorem rstep_timer_inv (memo : String) (t0 : Nat) (w : World) (e : REvent)
    (h : w.promise = .pending → t0 ∈ w.activeTimers) :
    (rstep memo t0 w e).promise = .pending →
      t0 ∈ (rstep memo t0 w e).activeTimers := by
  by_cases hp : w.promise = .pending
  · cases e with
    | setUrl p => exact h
    | visible =>
      show (if w.visListeners = 0 then w else (handleReturn memo w).1).promise =
          .pending →
        t0 ∈ (if w.visListeners = 0 then w else (handleReturn memo w).1).activeTimers
      split
      · exact h
      · unfold handleReturn
        dsimp only
        split
        · intro hq
          rw [settle_eq_pending_iff] at hq
          exact absurd hq.2 (returnOutcome_ne_pending _)
        · exact h
    | timerFire =>
      show (redirectTimerFire t0 w).promise = .pending →
        t0 ∈ (redirectTimerFire t0 w).activeTimers
      unfold redirectTimerFire
      split
      · intro hq
        rw [settle_eq_pending_iff] at hq
        exact absurd hq.2 (by simp)
      · exact h
  · intro hq
    rw [rstep_settled memo t0 w e hp] at hq
    exact absurd hq hp

theorem istep_outcome (ao : String) (t0 : Nat) (w : World) (e : IEvent)
    (h : inFrameOutcome w.promise) : inFrameOutcome (istep ao t0 w e).promise := by
  cases e with
  | msg m =>
    show inFrameOutcome (handleWindowMessage ao t0 m w).1.promise
    unfold handleWindowMessage
    rcases m with ⟨orig, data⟩
    dsimp only
    by_cases ho : isOriginAllowed ao orig = true
    · simp only [ho, Bool.not_true, Bool.false_eq_true, if_false]
      cases data with
      | paymentSuccess p =>
        dsimp only
        split
        · exact h
        · exact outcome_settle_inFrame h (Or.inr (Or.inl ⟨_, rfl⟩))
      | paymentCancelled =>
        dsimp only
        split
        · exact h
        · exact outcome_settle_inFrame h (Or.inr (Or.inr (Or.inl rfl)))
      | other t => exact h
    · have ho2 : isOriginAllowed ao orig = false := by
        revert ho; cases isOriginAllowed ao orig <;> simp
      simp only [ho2, Bool.not_false, if_true]
      exact h
  | timerFire =>
    show inFrameOutcome (paymentTimeoutFire t0 w).promise
    unfold paymentTimeoutFire
    split
    · exact outcome_settle_inFrame h (Or.inr (Or.inr (Or.inr rfl)))
    · exact h

theorem rstep_outcome (memo : String) (t0 : Nat) (w : World) (e : REvent)
    (h : redirectOutcome w.promise) : redirectOutcome (rstep memo t0 w e).promise := by
  cases e with
  | setUrl p => exact h
  | visible =>
    show redirectOutcome
      (if w.visListeners = 0 then w else (handleReturn memo w).1).promise
    split
    · exact h
    · unfold handleReturn
      dsimp only
      split
      · exact outcome_settle_redirect h (returnOutcome_mem _)
      · exact h
  | timerFire =>
    show redirectOutcome (redirectTimerFire t0 w).promise
    unfold redirectTimerFire
    split
    · exact outcome_settle_redirect h (Or.inl (Or.inr (Or.inr (Or.inr rfl))))
    · exact h

theorem irun_timer_inv (ao : String) (t0 : Nat) (w : World) (evs : List IEvent)
    (h : w.promise = .pending → t0 ∈ w.activeTimers) :
    (irun ao t0 w evs).promise = .pending →
      t0 ∈ (irun ao t0 w evs).activeTimers := by
  induction evs generalizing w with
  | nil => exact h
  | cons e evs ih =>
    show (irun ao t0 (istep ao t0 w e) evs).promise = .pending → _
    exact ih (istep ao t0 w e) (istep_timer_inv ao t0 w e h)

theorem rrun_timer_inv (memo : String) (t0 : Nat) (w : World) (evs : List REvent)
    (h : w.promise = .pending → t0 ∈ w.activeTimers) :
    (rrun memo t0 w evs).promise = .pending →
      t0 ∈ (rrun memo t0 w evs).activeTimers := by
  induction evs generalizing w with
  | nil => exact h
  | cons e evs ih =>
    show (rrun memo t0 (rstep memo t0 w e) evs).promise = .pending → _
    exact ih (rstep memo t0 w e) (rstep_timer_inv memo t0 w e h)

theorem handleIframePayment_init (ao : String) (pd : Bool)
    (msg : PaymentRequestMessage) (w : World) :
    (handleIframePayment ao pd msg w).1.promise = .pending →
      w.nextTimer ∈ (handleIframePayment ao pd msg w).1.activeTimers := by
  unfold handleIframePayment
  dsimp only
  split
  · intro hq
    rw [settle_eq_pending_iff] at hq
    exact absurd hq.2 (by simp)
  · split
    · intro hq
      rw [settle_eq_pending_iff] at hq
      exact absurd hq.2 (by simp)
    · intro _
      exact List.mem_cons_self _ _

theorem clearStaleTimeout_nextTimer (w : World) :
    (clearStaleTimeout w).1.nextTimer = w.nextTimer := by
  unfold clearStaleTimeout
  split
  · split
    · split <;> rfl
    · rfl
  · rfl

theorem setupReturnUrlHandler_timer (memo : String) (w : World) :
    w.nextTimer ∈ (setupReturnUrlHandler memo w).1.activeTimers := by
  unfold setupReturnUrlHandler handleReturn
  dsimp only
  split <;> dsimp only <;> split <;> dsimp only <;>
    exact List.mem_cons_self _ _

theorem handleRedirectPayment_init (ao : String) (msg : PaymentRequestMessage)
    (u : String) (w : World) :
    (handleRedirectPayment ao msg u w).1.promise = .pending →
      w.nextTimer ∈ (handleRedirectPayment ao msg u w).1.activeTimers := by
  unfold handleRedirectPayment
  dsimp only
  split
  · intro hq
    rw [settle_eq_pending_iff] at hq
    exact absurd hq.2 (by simp)
  · rename_i mv heq
    intro _
    have h1 := setupReturnUrlHandler_timer mv
      { (clearStaleTimeout w).1 with
        storage := setItem STORAGE_KEY
          ⟨(clearStaleTimeout w).1.now, msg.address, msg.amount, msg.currency,
           mv, u, none⟩ (clearStaleTimeout w).1.storage }
    dsimp only at h1 ⊢
    rw [← clearStaleTimeout_nextTimer w]
    exact h1

/-- C1: the caller's promise settles exactly once, with one of the protocol's
terminal outcomes.  In both transports a settled promise is never changed by
any later event (a late message, return URL, or timer firing is a no-op and
cannot throw), any run in which the payment timer eventually fires ends with
the promise settled (never zero outcomes), the settled value always lies in
the transport's outcome set, and both transport initializations establish the
invariant that a pending promise has its timeout scheduled. -/
theorem exactly_once_resolution (ao memo : String) (t0 : Nat) :
    (∀ (w : World) (e : IEvent), w.promise ≠ .pending →
       (istep ao t0 w e).promise = w.promise) ∧
    (∀ (w : World) (e : REvent), w.promise ≠ .pending →
       (rstep memo t0 w e).promise = w.promise) ∧
    (∀ (w : World) (evs : List IEvent),
       (w.promise = .pending → t0 ∈ w.activeTimers) →
       (irun ao t0 w (evs ++ [.timerFire])).promise ≠ .pending) ∧
    (∀ (w : World) (evs : List REvent),
       (w.promise = .pending → t0 ∈ w.activeTimers) →
       (rrun memo t0 w (evs ++ [.timerFire])).promise ≠ .pending) ∧
    (∀ (w : World) (evs : List IEvent), inFrameOutcome w.promise →
       inFrameOutcome (irun ao t0 w evs).promise) ∧
    (∀ (w : World) (evs : List REvent), redirectOutcome w.promise →
       redirectOutcome (rrun memo t0 w evs).promise) ∧
    (∀ (pd : Bool) (msg : PaymentRequestMessage) (w : World),
       (handleIframePayment ao pd msg w).1.promise = .pending →
         w.nextTimer ∈ (handleIframePayment ao pd msg w).1.activeTimers) ∧
    (∀ (msg : PaymentRequestMessage) (u : String) (w : World),
       (handleRedirectPayment ao msg u w).1.promise = .pending →
         w.nextTimer ∈ (handleRedirectPayment ao msg u w).1.activeTimers) := by
  refine ⟨istep_settled ao t0, rstep_settled memo t0, ?_, ?_, ?_, ?_,
    handleIframePayment_init ao, handleRedirectPayment_init ao⟩
  · intro w evs hinv
    rw [irun, List.foldl_append]
    have h2 := irun_timer_inv ao t0 w evs hinv
    by_cases hp : (irun ao t0 w evs).promise = .pending
    · have ht : t0 ∈ (irun ao t0 w evs).activeTimers := h2 hp
      show (paymentTimeoutFire t0 (irun ao t0 w evs)).promise ≠ .pending
      unfold paymentTimeoutFire
      rw [if_pos ht]
      dsimp only
      rw [hp]
      simp [PromiseState.settle]
    · show (istep ao t0 (irun ao t0 w evs) .timerFire).promise ≠ .pending
      rw [istep_settled ao t0 _ _ hp]
      exact hp
  · intro w evs hinv
    rw [rrun, List.foldl_append]
    have h2 := rrun_timer_inv memo t0 w evs hinv
    by_cases hp : (rrun memo t0 w evs).promise = .pending
    · have ht : t0 ∈ (rrun memo t0 w evs).activeTimers := h2 hp
      show (redirectTimerFire t0 (rrun memo t0 w evs)).promise ≠ .pending
      unfold redirectTimerFire
      rw [if_pos ht]
      dsimp only
      rw [hp]
      simp [PromiseState.settle]
    · show (rstep memo t0 (rrun memo t0 w evs) .timerFire).promise ≠ .pending
      rw [rstep_settled memo t0 _ _ hp]
      exact hp
  · intro w evs h
    induction evs generalizing w with
    | nil => exact h
    | cons e evs ih =>
      exact ih (istep ao t0 w e) (istep_outcome ao t0 w e h)
  · intro w evs h
    induction evs generalizing w with
    | nil => exact h
    | cons e evs ih =>
      exact ih (rstep memo t0 w e) (rstep_outcome memo t0 w e h)

/-- C1 witness: a run that receives a success message and then the timer
event ends settled, and a late timer event leaves a settled promise
unchanged. -/
theorem exactly_once_resolution_witness :
    (irun "https://yodl.me" 1
      { sampleWorld with activeTimers := [1], successListeners := 1,
                         cancelListeners := 1 }
      ([.msg ⟨"https://yodl.me", .paymentSuccess ⟨"0xdead", some 1⟩⟩] ++
        [.timerFire])).promise ≠ .pending ∧
    (istep "https://yodl.me" 1
      { sampleWorld with promise := .resolved ⟨"0xdead", some 1⟩ }
      .timerFire).promise = .resolved ⟨"0xdead", some 1⟩ := by
  have h := exactly_once_resolution "https://yodl.me" "m" 1
  exact ⟨h.2.2.1
    { sampleWorld with activeTimers := [1], successListeners := 1,
                       cancelListeners := 1 }
    [.msg ⟨"https://yodl.me", .paymentSuccess ⟨"0xdead", some 1⟩⟩]
    (fun _ => by decide),
    h.1 { sampleWorld with promise := .resolved ⟨"0xdead", some 1⟩ }
      .timerFire (by decide)⟩

theorem spanNe_not_mem (sep : Char) (l : List Char) : sep ∉ (spanNe sep l).1 := by
  induction l with
  | nil => simp [spanNe]
  | cons c cs ih =>
    by_cases h : c = sep
    · simp [spanNe, h]
    · simp only [spanNe, h, if_false]
      intro hmem
      rcases List.mem_cons.1 hmem with h2 | h2
      · exact h h2.symm
      · exact ih h2

theorem charToDigit_digitChar (d : Nat) (h : d < 10) :
    charToDigit (digitChar d) = d := by
  interval_cases d <;> rfl

theorem digitsVal_append (l : List Char) (c : Char) :
    digitsVal (l ++ [c]) = 10 * digitsVal l + charToDigit c := by
  simp [digitsVal, List.foldl_append]

theorem digitsVal_natToCharsAux (fuel : Nat) :
    ∀ n, n ≤ fuel → digitsVal (natToCharsAux fuel n) = n := by
  induction fuel with
  | zero =>
    intro n h
    have : n = 0 := Nat.le_zero.1 h
    subst this
    rfl
  | succ fuel ih =>
    intro n h
    by_cases hz : n = 0
    · subst hz; rfl
    · have hd : n / 10 ≤ fuel := by
        have := Nat.div_lt_self (Nat.pos_of_ne_zero hz) (by norm_num : 1 < 10)
        omega
      show digitsVal (natToCharsAux (fuel + 1) n) = n
      unfold natToCharsAux
      rw [if_neg hz, digitsVal_append, ih _ hd,
          charToDigit_digitChar _ (Nat.mod_lt _ (by norm_num))]
      exact Nat.div_add_mod n 10

theorem digitsVal_natToChars (n : Nat) : digitsVal (natToChars n) = n := by
  by_cases h : n = 0
  · subst h; rfl
  · unfold natToChars
    rw [if_neg h]
    exact digitsVal_natToCharsAux n n le_rfl

theorem natToChars_injective {m n : Nat} (h : natToChars m = natToChars n) :
    m = n := by
  have hm := digitsVal_natToChars m
  rw [h, digitsVal_natToChars] at hm
  exact hm.symm

theorem colon_free_prefix_eq : ∀ (xs ys p q : List Char),
    ':' ∉ xs → ':' ∉ ys →
    (p = [] ∨ ∃ r, p = ':' :: r) → (q = [] ∨ ∃ r, q = ':' :: r) →
    xs ++ p = ys ++ q → xs = ys ∧ p = q := by
  intro xs
  induction xs with
  | nil =>
    intro ys p q hx hy hp hq he
    cases ys with
    | nil => exact ⟨rfl, he⟩
    | cons y ys2 =>
      rcases hp with hp | ⟨r, hp⟩
      · subst hp
        exact absurd he.symm (by simp)
      · subst hp
        simp only [List.nil_append, List.cons_append] at he
        injection he with h1 h2
        rw [← h1] at hy
        exact absurd (List.mem_cons_self _ _) hy
  | cons x xs2 ih =>
    intro ys p q hx hy hp hq he
    cases ys with
    | nil =>
      rcases hq with hq | ⟨r, hq⟩
      · subst hq
        exact absurd he (by simp)
      · subst hq
        simp only [List.nil_append, List.cons_append] at he
        injection he with h1 h2
        rw [h1] at hx
        exact absurd (List.mem_cons_self _ _) hx
    | cons y ys2 =>
      simp only [List.cons_append] at he
      injection he with h1 h2
      subst h1
      have hx2 : ':' ∉ xs2 := fun hh => hx (List.mem_cons_of_mem _ hh)
      have hy2 : ':' ∉ ys2 := fun hh => hy (List.mem_cons_of_mem _ hh)
      obtain ⟨e1, e2⟩ := ih ys2 p q hx2 hy2 hp hq h2
      exact ⟨by rw [e1], e2⟩

theorem specialScheme_colon_free {s : String} (h : s ∈ specialSchemes) :
    ':' ∉ s.data := by
  fin_cases h <;> decide

theorem portSuffix_shape (sch : String) (p : Nat) :
    (if p = defaultPort sch then ([] : List Char) else ':' :: natToChars p) = [] ∨
    ∃ r, (if p = defaultPort sch then ([] : List Char)
          else ':' :: natToChars p) = ':' :: r := by
  split
  · exact Or.inl rfl
  · exact Or.inr ⟨_, rfl⟩

theorem portSuffix_inj (sch : String) (p q : Nat)
    (h : (if p = defaultPort sch then ([] : List Char) else ':' :: natToChars p) =
         (if q = defaultPort sch then ([] : List Char) else ':' :: natToChars q)) :
    p = q := by
  by_cases h1 : p = defaultPort sch <;> by_cases h2 : q = defaultPort sch
  · rw [h1, h2]
  · rw [if_pos h1, if_neg h2] at h
    exact absurd h.symm (by simp)
  · rw [if_neg h1, if_pos h2] at h
    exact absurd h (by simp)
  · rw [if_neg h1, if_neg h2] at h
    injection h with _ h3
    exact natToChars_injective h3

theorem serialize_tuple_inj {sa ha sb hb : String} {pa pb : Nat}
    (hma : sa ∈ specialSchemes) (hca : ':' ∉ ha.data)
    (hmb : sb ∈ specialSchemes) (hcb : ':' ∉ hb.data)
    (he : serializeOrigin (.tuple sa ha pa) = serializeOrigin (.tuple sb hb pb)) :
    sa = sb ∧ ha = hb ∧ pa = pb := by
  have hd := congrArg String.data he
  dsimp only [serializeOrigin] at hd
  obtain ⟨e1, e2⟩ := colon_free_prefix_eq _ _ _ _ (specialScheme_colon_free hma)
    (specialScheme_colon_free hmb) (Or.inr ⟨_, rfl⟩) (Or.inr ⟨_, rfl⟩) hd
  have es : sa = sb := by
    cases sa; cases sb
    exact congrArg String.mk e1
  subst es
  injection e2 with _ e2
  injection e2 with _ e2
  injection e2 with _ e2
  obtain ⟨f1, f2⟩ := colon_free_prefix_eq _ _ _ _ hca hcb
    (portSuffix_shape sa pa) (portSuffix_shape sa pb) e2
  have eh : ha = hb := by
    cases ha; cases hb
    exact congrArg String.mk f1
  exact ⟨rfl, eh, portSuffix_inj sa pa pb f2⟩

theorem serialize_tuple_ne_null {sa ha : String} {pa : Nat}
    (hma : sa ∈ specialSchemes) :
    serializeOrigin (.tuple sa ha pa) ≠ serializeOrigin .nullOrigin := by
  intro he
  have hd := congrArg String.data he
  dsimp only [serializeOrigin] at hd
  fin_cases hma
  all_goals
    simp only [List.cons_append, List.nil_append] at hd
    injection hd with hx _
    exact absurd hx (by decide)

theorem parseSpecialAuthority_inv {scheme : String} {rest : List Char}
    {sch h : String} {p : Nat}
    (hp : parseSpecialAuthority scheme rest = some (.tuple sch h p)) :
    sch = scheme ∧ ':' ∉ h.data := by
  unfold parseSpecialAuthority at hp
  dsimp only at hp
  split at hp
  · exact Option.noConfusion hp
  · split at hp
    · exact Option.noConfusion hp
    · split at hp
      · injection hp with hp2
        injection hp2 with e1 e2 e3
        subst e2
        exact ⟨e1.symm, spanNe_not_mem _ _⟩
      · split at hp
        · injection hp with hp2
          injection hp2 with e1 e2 e3
          subst e2
          exact ⟨e1.symm, spanNe_not_mem _ _⟩
        · injection hp with hp2
          injection hp2 with e1 e2 e3
          subst e2
          exact ⟨e1.symm, spanNe_not_mem _ _⟩
        · exact Option.noConfusion hp

theorem parseNonSpecialAuthority_ne_tuple {rest : List Char}
    {sch h : String} {p : Nat} :
    parseNonSpecialAuthority rest ≠ some (.tuple sch h p) := by
  intro hp
  unfold parseNonSpecialAuthority at hp
  dsimp only at hp
  split at hp
  all_goals
    try split at hp
  all_goals first
    | exact Option.noConfusion hp
    | (injection hp with hp2
       exact OriginVal.noConfusion hp2)

theorem parseUrlOrigin_tuple_inv {s sch h : String} {p : Nat}
    (hp : parseUrlOrigin s = some (.tuple sch h p)) :
    sch ∈ specialSchemes ∧ ':' ∉ h.data := by
  unfold parseUrlOrigin at hp
  split at hp
  · exact Option.noConfusion hp
  · dsimp only at hp
    split at hp
    · rename_i hmem
      obtain ⟨e1, e2⟩ := parseSpecialAuthority_inv hp
      subst e1
      exact ⟨hmem, e2⟩
    · split at hp
      · injection hp with hp2
        exact OriginVal.noConfusion hp2
      · split at hp
        · exact absurd hp parseNonSpecialAuthority_ne_tuple
        · injection hp with hp2
          exact OriginVal.noConfusion hp2

/-- C9 counterexample: two URLs with entirely different schemes and no
host or port at all — `mailto:a@b` and `data:,x` — both parse to the opaque
origin, whose serialization is the string `"null"` on both sides, so the
guard returns true although their scheme, host, and port are not "exactly
equal"; the claimed if-and-only-if characterization is false on the code. -/
theorem opaque_origins_compare_equal :
    parseUrlOrigin "mailto:a@b" = some .nullOrigin ∧
    parseUrlOrigin "data:,x" = some .nullOrigin ∧
    isOriginAllowed "mailto:a@b" "data:,x" = true := by decide

/-- C9 (amended): the origin guard parses both strings as absolute URLs and
compares the serialized `.origin` values; it never throws, and whenever
either side is malformed it returns false and logs a warning.  When both
sides have tuple origins — the special schemes ftp, http, https, ws, wss —
it returns true exactly when scheme, host, and port are equal; two opaque
origins (file: and every non-special scheme) always compare equal, both
serializing as "null"; and a tuple origin never equals an opaque one. -/
theorem origin_guard_characterization (a b : String) :
    ((parseUrlOrigin a = none ∨ parseUrlOrigin b = none) →
      isOriginAllowedWarn a b = (false, true)) ∧
    (∀ sa ha pa sb hb pb,
      parseUrlOrigin a = some (.tuple sa ha pa) →
      parseUrlOrigin b = some (.tuple sb hb pb) →
      (isOriginAllowed a b = true ↔ (sa = sb ∧ ha = hb ∧ pa = pb))) ∧
    (parseUrlOrigin a = some .nullOrigin →
      parseUrlOrigin b = some .nullOrigin → isOriginAllowed a b = true) ∧
    (∀ sa ha pa, parseUrlOrigin a = some (.tuple sa ha pa) →
      parseUrlOrigin b = some .nullOrigin → isOriginAllowed a b = false) ∧
    (∀ sb hb pb, parseUrlOrigin a = some .nullOrigin →
      parseUrlOrigin b = some (.tuple sb hb pb) → isOriginAllowed a b = false) := by
  refine ⟨?_, ?_, ?_, ?_, ?_⟩
  · intro hcase
    unfold isOriginAllowedWarn
    rcases hcase with hc | hc
    · rw [hc]
    · cases hpa : parseUrlOrigin a with
      | none => rfl
      | some oa => rw [hc]
  · intro sa ha pa sb hb pb hpa hpb
    constructor
    · intro ht
      unfold isOriginAllowed isOriginAllowedWarn at ht
      rw [hpa, hpb] at ht
      dsimp at ht
      have he := eq_of_beq ht
      have i1 := parseUrlOrigin_tuple_inv hpa
      have i2 := parseUrlOrigin_tuple_inv hpb
      exact serialize_tuple_inj i1.1 i1.2 i2.1 i2.2 he
    · rintro ⟨e1, e2, e3⟩
      subst e1
      subst e2
      subst e3
      unfold isOriginAllowed isOriginAllowedWarn
      rw [hpa, hpb]
      dsimp
      exact beq_self_eq_true _
  · intro hpa hpb
    unfold isOriginAllowed isOriginAllowedWarn
    rw [hpa, hpb]
    dsimp
    exact beq_self_eq_true _
  · intro sa ha pa hpa hpb
    unfold isOriginAllowed isOriginAllowedWarn
    rw [hpa, hpb]
    dsimp
    cases hbe : (serializeOrigin (.tuple sa ha pa) ==
        serializeOrigin .nullOrigin) with
    | false => rfl
    | true =>
      exact absurd (eq_of_beq hbe)
        (serialize_tuple_ne_null (parseUrlOrigin_tuple_inv hpa).1)
  · intro sb hb pb hpa hpb
    unfold isOriginAllowed isOriginAllowedWarn
    rw [hpa, hpb]
    dsimp
    cases hbe : (serializeOrigin .nullOrigin ==
        serializeOrigin (.tuple sb hb pb)) with
    | false => rfl
    | true =>
      exact absurd (eq_of_beq hbe).symm
        (serialize_tuple_ne_null (parseUrlOrigin_tuple_inv hpb).1)

/-- C9 witness: equal ws origins modulo default-port normalization are
allowed, a malformed candidate yields false with a warning, and a tuple
origin compared against an opaque one yields false. -/
theorem origin_guard_characterization_witness :
    isOriginAllowed "ws://yodl.me" "ws://yodl.me:80" = true ∧
    isOriginAllowedWarn "https://yodl.me" "not a url" = (false, true) ∧
    isOriginAllowed "https://yodl.me" "mailto:a@b" = false := by
  have h1 := ((origin_guard_characterization "ws://yodl.me"
    "ws://yodl.me:80").2.1 "ws" "yodl.me" 80 "ws" "yodl.me" 80
    (by decide) (by decide)).mpr ⟨rfl, rfl, rfl⟩
  have h2 := (origin_guard_characterization "https://yodl.me" "not a url").1
    (Or.inr (by decide))
  have h3 := (origin_guard_characterization "https://yodl.me"
    "mailto:a@b").2.2.2.1 "https" "yodl.me" 443 (by decide) (by decide)
  exact ⟨h1, h2, h3⟩

end YappSdk
